import Mathlib

/-!
# SimplyShop: verification of the sales/inventory reconciliation logic

Shallow embedding of the request handlers in `shop/views.py` over the
relational schema of `shop/models.py`.  Monetary values (Django
`DecimalField`) are modelled as `ℚ`; `PositiveIntegerField` columns
(order/return line quantities, session cart quantities) as `ℕ`; a
product's `stock_quantity` is modelled as `Int` so that the
non-negativity kept by the handler logic is a theorem, not a typing
artifact.  Fallible handlers return `Option`: `none` is an aborted
request (404, validation redirect, or an uncaught exception) that
leaves the database unchanged unless noted otherwise.
-/

namespace Shop

/-- Order lifecycle states (`Order.STATUS_CHOICES`). -/
inductive OrderStatus where
  | pending
  | preparing
  | completed
  | cancelled
  | returned
deriving DecidableEq, Repr

/-- A `Product` row: the pricing/stock fields the reconciliation logic reads
and writes (image, description, unit/tax/reorder metadata are never touched
by the modelled handlers). -/
structure Product where
  id : Nat
  name : String
  price : ℚ
  cost_price : ℚ
  discount_price : ℚ
  stock_quantity : Int
  barcode : Option String
  qr_payload : String
  is_active : Bool
deriving DecidableEq, Repr

/-- An `Order` row (timestamps are abstract integers). -/
structure Order where
  id : Nat
  customer_name : String
  customer_phone : String
  customer_address : String
  created_at : Int
  status : OrderStatus
deriving DecidableEq, Repr

/-- An `OrderItem` row; `order` and `product` are foreign keys by id. -/
structure OrderItem where
  id : Nat
  order : Nat
  product : Nat
  quantity : Nat
  unit_price : ℚ
  discount_amount : ℚ
deriving DecidableEq, Repr

/-- An `OrderPayment` row (negative `amount` records a refund). -/
structure OrderPayment where
  order : Nat
  method : String
  amount : ℚ
  reference : String
deriving DecidableEq, Repr

/-- An `OrderReturn` row. -/
structure OrderReturn where
  id : Nat
  order : Nat
  reason : String
  refund_method : String
  created_at : Int
deriving DecidableEq, Repr

/-- An `OrderReturnItem` row. -/
structure OrderReturnItem where
  order_return : Nat
  product : Nat
  quantity : Nat
  unit_price : ℚ
deriving DecidableEq, Repr

/-- A `Customer` row (fields used by checkout and the credit ledger). -/
structure Customer where
  id : Nat
  name : String
  phone : String
  address : String
deriving DecidableEq, Repr

/-- A `CreditEntry` row (`quantity` is taken verbatim from the form,
`add_credit` performs no clamping on it). -/
structure CreditEntry where
  id : Nat
  customer : Nat
  product : Option Nat
  item_name : String
  quantity : Int
  amount : ℚ
  is_paid : Bool
  date_paid : Option Int
deriving DecidableEq, Repr

/-- A `Purchase` row. -/
structure Purchase where
  id : Nat
  wholesaler : Nat
  date : Int
deriving DecidableEq, Repr

/-- A `PurchaseItem` row. -/
structure PurchaseItem where
  purchase : Nat
  product : Nat
  quantity : Nat
  unit_cost : ℚ
deriving DecidableEq, Repr

/-- An `AuditLog` row as written by `_audit_log` (the user column is not
modelled; old/new values are stored as strings, as in the source). -/
structure AuditLog where
  action : String
  model : String
  object_id : Nat
  field : String
  old_value : String
  new_value : String
deriving DecidableEq, Repr

/-- The relational state the modelled handlers read and write. -/
structure DB where
  products : List Product
  customers : List Customer
  orders : List Order
  orderItems : List OrderItem
  payments : List OrderPayment
  orderReturns : List OrderReturn
  returnItems : List OrderReturnItem
  purchases : List Purchase
  purchaseItems : List PurchaseItem
  credits : List CreditEntry
  auditLog : List AuditLog
deriving DecidableEq, Repr

/-- Outcome of reading an integer form field from the request:
the field is absent, present but not a number, or a parsed integer. -/
inductive FormField where
  | missing
  | unparseable
  | value (n : Int)
deriving DecidableEq, Repr

/-- Python `int(request.POST.get(name, default))` wrapped in `try/except ValueError`:
both a missing field (via the supplied default string) and an unparseable
one yield the fallback. -/
def FormField.intCaught (d : Int) : FormField → Int
  | .missing => d
  | .unparseable => d
  | .value n => n

/-- Python `int(request.POST.get(name, default))` with no exception handler:
a missing field uses the default, but an unparseable one propagates the
`ValueError` and the request fails. -/
def FormField.intRaw (d : Int) : FormField → Option Int
  | .missing => some d
  | .unparseable => none
  | .value n => some n

/-- Outcome of reading a monetary form field from the request. -/
inductive MoneyField where
  | missing
  | unparseable
  | value (q : ℚ)
deriving DecidableEq, Repr

/-- Python `float(text)` wrapped in `try/except ValueError`, where a missing field
already defaulted to the string `"0"`. -/
def MoneyField.floatCaught (d : ℚ) : MoneyField → ℚ
  | .missing => d
  | .unparseable => d
  | .value q => q

/-! ## Cart session (`request.session['cart']`)

The session cart is a dict from product-id string to a positive int,
modelled as an association list with unique keys. -/

/-- Dict lookup `cart.get(str(pid))`. -/
def cartLookup (cart : List (Nat × Nat)) (pid : Nat) : Option Nat :=
  (cart.find? (fun kv => kv.1 == pid)).map (fun kv => kv.2)

/-- Dict assignment `cart[str(pid)] = q`. -/
def cartSet (cart : List (Nat × Nat)) (pid q : Nat) : List (Nat × Nat) :=
  if (cart.find? (fun kv => kv.1 == pid)).isSome then
    cart.map (fun kv => if kv.1 == pid then (kv.1, q) else kv)
  else cart ++ [(pid, q)]

/-- Dict accumulation `cart[key] = cart.get(key, 0) + qty`. -/
def cartAdd (cart : List (Nat × Nat)) (pid q : Nat) : List (Nat × Nat) :=
  match cartLookup cart pid with
  | some old => cartSet cart pid (old + q)
  | none => cart ++ [(pid, q)]

/-- Dict removal `del cart[str(pid)]`. -/
def cartRemove (cart : List (Nat × Nat)) (pid : Nat) : List (Nat × Nat) :=
  cart.filter (fun kv => kv.1 ≠ pid)

/-- Handler `add_to_cart(request, product_id)`: on POST the quantity field is parsed
with a `try/except` fallback to 1 and clamped to at least 1; on GET the
quantity is 1.  The parsed quantity is accumulated onto the cart line. -/
def add_to_cart (cart : List (Nat × Nat)) (productId : Nat) (isPost : Bool)
    (quantity : FormField) : List (Nat × Nat) :=
  let qty : Int :=
    if isPost then
      let q := quantity.intCaught 1
      if q < 1 then 1 else q
    else 1
  cartAdd cart productId qty.toNat

/-- Handler `update_cart(request, product_id)`: `int(request.POST.get('quantity', 1))`
has no exception handler, so an unparseable quantity fails the request
(`none`).  A positive quantity replaces the line, a non-positive one
removes it. -/
def update_cart (cart : List (Nat × Nat)) (productId : Nat)
    (quantity : FormField) : Option (List (Nat × Nat)) :=
  match quantity.intRaw 1 with
  | none => none
  | some q =>
    if 0 < q then some (cartSet cart productId q.toNat)
    else some (cartRemove cart productId)

/-- Handler `remove_from_cart(request, product_id)`. -/
def remove_from_cart (cart : List (Nat × Nat)) (productId : Nat) :
    List (Nat × Nat) :=
  cartRemove cart productId

/-- Lookup `_find_product_by_code`: exact barcode match, then exact QR payload
match, then numeric id match. -/
def find_product_by_code (db : DB) (code : String) : Option Product :=
  let code := code.trim
  if code = "" then none
  else
    match db.products.find? (fun p => p.barcode == some code) with
    | some p => some p
    | none =>
      match db.products.find? (fun p => p.qr_payload == code) with
      | some p => some p
      | none =>
        match code.toInt? with
        | some pid => db.products.find? (fun p => (p.id : Int) == pid)
        | none => none

/-- Handler `scan_add_to_cart`: resolves the scanned code, rejects unknown or
inactive products, parses the quantity with a `try/except` fallback to 1,
clamps it to at least 1 and accumulates it onto the cart. -/
def scan_add_to_cart (db : DB) (cart : List (Nat × Nat)) (code : String)
    (qty : FormField) : Option (List (Nat × Nat)) :=
  match find_product_by_code db code with
  | none => none
  | some p =>
    if p.is_active then
      let q := qty.intCaught 1
      let q := if q < 1 then 1 else q
      some (cartAdd cart p.id q.toNat)
    else none

/-- Handler `scan_stock_increment`: resolves the scanned code, parses the delta with
a `try/except` fallback to 1, clamps it to at least 1, adds it to the
product's stock and writes one `stock_change` audit row. -/
def scan_stock_increment (db : DB) (code : String) (delta : FormField) :
    Option DB :=
  match find_product_by_code db code with
  | none => none
  | some p =>
    let d := delta.intCaught 1
    let d := if d < 1 then 1 else d
    some { db with
      products := db.products.map (fun x =>
        if x.id == p.id then { x with stock_quantity := p.stock_quantity + d }
        else x),
      auditLog := db.auditLog ++
        [⟨"stock_change", "Product", p.id, "stock_quantity",
          toString p.stock_quantity, toString (p.stock_quantity + d)⟩] }

/-! ## Checkout (order placement) -/

/-- The stock update performed per ordered line in `checkout`:
`if stock >= quantity: stock -= quantity else: stock = 0`. -/
def clampStock (s : Int) (q : Nat) : Int :=
  if (q : Int) ≤ s then s - q else 0

/-- The `Customer.objects.get_or_create(name=..., defaults=...)` call and the
conditional phone/address refresh in `checkout`. -/
def upsertCustomer (customers : List Customer) (name phone address : String)
    (newId : Nat) : List Customer :=
  match customers.find? (fun c => c.name == name) with
  | none => customers ++ [⟨newId, name, phone, address⟩]
  | some c =>
    let c2 := { c with
      phone := if phone ≠ "" ∧ c.phone ≠ phone then phone else c.phone,
      address :=
        if address ≠ "" ∧ c.address ≠ address then address else c.address }
    customers.map (fun x => if x.id == c.id then c2 else x)

/-- Handler `checkout(request)` on POST.  Returns the database, the session cart and
the id of the created order (`none` when no order was placed).  An empty
cart redirects away; missing customer name/phone/address (Python
false-y strings, modelled as `""`) fall through to re-rendering the form
with nothing written.  Otherwise: the customer is upserted, a pending
order is created, and for every cart line whose product still exists an
`OrderItem` snapshots the current price/discount, the stock is
decremented clamped at zero, and a `stock_change` audit row is written.
Up to two payments with positive parsed amounts are recorded and the
cart is cleared. -/
def checkout (db : DB) (cart : List (Nat × Nat)) (name phone address : String)
    (method1 : String) (amount1 : MoneyField) (ref1 : String)
    (method2 : String) (amount2 : MoneyField) (ref2 : String)
    (now : Int) (newOrderId newCustomerId : Nat) :
    DB × List (Nat × Nat) × Option Nat :=
  if cart = [] then (db, cart, none)
  else if name ≠ "" ∧ phone ≠ "" ∧ address ≠ "" then
    let customers2 := upsertCustomer db.customers name phone address newCustomerId
    let inCart := db.products.filter (fun p => (cartLookup cart p.id).isSome)
    let qtyOf := fun (p : Product) => (cartLookup cart p.id).getD 0
    let base := db.orderItems.length
    let newItems := ((List.range inCart.length).zip inCart).map (fun pr =>
      { id := base + pr.1, order := newOrderId, product := pr.2.id,
        quantity := qtyOf pr.2, unit_price := pr.2.price,
        discount_amount := pr.2.discount_price : OrderItem })
    let newAudits := inCart.map (fun p =>
      { action := "stock_change", model := "Product", object_id := p.id,
        field := "stock_quantity", old_value := toString p.stock_quantity,
        new_value := toString (clampStock p.stock_quantity (qtyOf p)) :
        AuditLog })
    let products2 := db.products.map (fun p =>
      match cartLookup cart p.id with
      | some q => { p with stock_quantity := clampStock p.stock_quantity q }
      | none => p)
    let a1 := amount1.floatCaught 0
    let a2 := amount2.floatCaught 0
    let pays :=
      (if method1 ≠ "" ∧ 0 < a1 then [⟨newOrderId, method1, a1, ref1⟩] else [])
        ++ (if method2 ≠ "" ∧ 0 < a2 then [⟨newOrderId, method2, a2, ref2⟩]
            else [])
    ({ db with
        customers := customers2,
        orders := db.orders ++ [⟨newOrderId, name, phone, address, now, .pending⟩],
        orderItems := db.orderItems ++ newItems,
        payments := db.payments ++ pays,
        products := products2,
        auditLog := db.auditLog ++ newAudits },
      [], some newOrderId)
  else (db, cart, none)

/-- Handler `mark_order_completed(request, order_id)`: 404 when the order does not
exist; otherwise the status is set to `completed` unless it already is. -/
def mark_order_completed (db : DB) (orderId : Nat) : Option DB :=
  match db.orders.find? (fun o => o.id == orderId) with
  | none => none
  | some o =>
    if o.status ≠ OrderStatus.completed then
      some { db with orders := db.orders.map (fun x =>
        if x.id == orderId then { o with status := .completed } else x) }
    else some db

/-! ## Return processing -/

/-- One iteration of the `return_order` loop over the order's items.  The
requested quantity string parses with a `try/except` fallback to 0; a
positive request is clamped to the ordered quantity, a return item is
created, and the product row is written with the stock carried by the
item's `select_related` product instance (loaded before the loop, hence
read from the pre-return `db.products`) plus the returned quantity. -/
def returnStep (db : DB) (req : Nat → Option Int) (newReturnId : Nat)
    (acc : List Product × ℚ × List OrderReturnItem) (item : OrderItem) :
    List Product × ℚ × List OrderReturnItem :=
  let raw := (req item.id).getD 0
  if 0 < raw then
    let rqty : Nat := min raw.toNat item.quantity
    let newStock : Int :=
      match db.products.find? (fun p => p.id == item.product) with
      | some p0 => p0.stock_quantity + rqty
      | none => 0
    (acc.1.map (fun p =>
        if p.id == item.product then { p with stock_quantity := newStock }
        else p),
      acc.2.1 + item.unit_price * (rqty : ℚ),
      acc.2.2 ++ [⟨newReturnId, item.product, rqty, item.unit_price⟩])
  else acc

/-- Handler `return_order(request, order_id)` on POST: 404 when the order does not
exist.  Creates one `OrderReturn`, processes every item of the order via
`returnStep`, records a single negative `REFUND` payment when a refund
method was chosen and the refund total is positive, and forces the order
status to `returned`. -/
def return_order (db : DB) (orderId : Nat) (reason refund_method : String)
    (req : Nat → Option Int) (newReturnId : Nat) (now : Int) : Option DB :=
  match db.orders.find? (fun o => o.id == orderId) with
  | none => none
  | some _ =>
    let origItems := db.orderItems.filter (fun it => it.order == orderId)
    let res := origItems.foldl (returnStep db req newReturnId)
      (db.products, 0, [])
    let pays :=
      if refund_method ≠ "" ∧ 0 < res.2.1 then
        [⟨orderId, refund_method, -res.2.1, "REFUND"⟩]
      else []
    some { db with
      products := res.1,
      orderReturns := db.orderReturns ++
        [⟨newReturnId, orderId, reason, refund_method, now⟩],
      returnItems := db.returnItems ++ res.2.2,
      payments := db.payments ++ pays,
      orders := db.orders.map (fun o =>
        if o.id == orderId then { o with status := .returned } else o) }

/-! ## Credit ledger -/

/-- The tail of `add_credit` once the customer is resolved: product link,
item-name derivation and validation, amount fallback, and creation of the
credit entry.  The customer list update (`customers2`) persists even when
the item-name validation fails, because `get_or_create` already wrote the
customer before the check. -/
def addCreditBody (db : DB) (customers2 : List Customer) (customer : Customer)
    (qty : Int) (item_name : String) (productId : Option Nat)
    (amount : MoneyField) (newCreditId : Nat) : DB :=
  let product0 : Option Product := match productId with
    | some pid => db.products.find? (fun p => p.id == pid)
    | none => none
  let item2 :=
    if item_name = "" then
      match product0 with
      | some p => p.name
      | none => ""
    else item_name
  if item2 = "" then { db with customers := customers2 }
  else
    let amount0 := amount.floatCaught 0
    let amount2 :=
      match product0 with
      | some p => if amount0 ≤ 0 then p.price * (qty : ℚ) else amount0
      | none => amount0
    { db with
      customers := customers2,
      credits := db.credits ++
        [⟨newCreditId, customer.id, product0.map (fun p => p.id), item2, qty,
          amount2, false, none⟩] }

/-- Handler `add_credit(request)` on POST.  There `int(request.POST.get("quantity", 1))`
has no exception handler, so an unparseable quantity fails the request
before anything is written.  The customer is resolved by id, else by
`(name, phone)` get-or-create (a missing name aborts with nothing
written); the rest is `addCreditBody`. -/
def add_credit (db : DB) (customerId : Option Nat)
    (customer_name customer_phone : String) (item_name : String)
    (productId : Option Nat) (quantity : FormField) (amount : MoneyField)
    (newCustomerId newCreditId : Nat) : Option DB :=
  match quantity.intRaw 1 with
  | none => none
  | some qty =>
    let found : Option Customer := match customerId with
      | some cid => db.customers.find? (fun c => c.id == cid)
      | none => none
    match found with
    | some c =>
      some (addCreditBody db db.customers c qty item_name productId amount
        newCreditId)
    | none =>
      if customer_name = "" then some db
      else
        match db.customers.find? (fun c =>
            c.name == customer_name && c.phone == customer_phone) with
        | some c =>
          some (addCreditBody db db.customers c qty item_name productId amount
            newCreditId)
        | none =>
          let c : Customer := ⟨newCustomerId, customer_name, customer_phone, ""⟩
          some (addCreditBody db (db.customers ++ [c]) c qty item_name
            productId amount newCreditId)

/-- Handler `mark_credit_paid(request, credit_id)`: 404 when the entry does not
exist; when unpaid, sets `is_paid`, stamps `date_paid` and writes one
`credit_paid` audit row; when already paid, changes nothing. -/
def mark_credit_paid (db : DB) (creditId : Nat) (now : Int) : Option DB :=
  match db.credits.find? (fun c => c.id == creditId) with
  | none => none
  | some c =>
    if c.is_paid then some db
    else
      some { db with
        credits := db.credits.map (fun x =>
          if x.id == creditId then
            { c with is_paid := true, date_paid := some now }
          else x),
        auditLog := db.auditLog ++
          [⟨"credit_paid", "CreditEntry", c.id, "is_paid", "False", "True"⟩] }

/-! ## Purchasing engine -/

/-- The purchase-recording POST branch of `wholesaler_dashboard`, from the
point where the wholesaler has been resolved.  The quantity parses with
a `try/except` fallback to 1 and is clamped to at least 1; a
non-positive unit cost or selling price aborts with nothing written; the
product is resolved by id, else created from `new_product_name` with
zero stock.  One `Purchase` and one `PurchaseItem` are created, and the
product's stock is incremented while its `cost_price` and `price` are
overwritten with the just-entered values. -/
def record_purchase (db : DB) (wholesalerId : Nat) (productId : Option Nat)
    (new_product_name : String) (quantity : FormField)
    (unit_cost selling_price : ℚ) (date : Int)
    (newPurchaseId newProductId : Nat) : Option DB :=
  let q0 := quantity.intCaught 1
  let qty : Nat := (if q0 < 1 then 1 else q0).toNat
  if unit_cost ≤ 0 then none
  else if selling_price ≤ 0 then none
  else
    let found : Option Product := match productId with
      | some pid => db.products.find? (fun p => p.id == pid)
      | none => none
    let resolved : Option (Product × List Product) :=
      match found with
      | some p => some (p, db.products)
      | none =>
        if new_product_name = "" then none
        else
          let p : Product := ⟨newProductId, new_product_name, selling_price,
            unit_cost, 0, 0, none, "", true⟩
          some (p, db.products ++ [p])
    match resolved with
    | none => none
    | some (product, products1) =>
      some { db with
        purchases := db.purchases ++ [⟨newPurchaseId, wholesalerId, date⟩],
        purchaseItems := db.purchaseItems ++
          [⟨newPurchaseId, product.id, qty, unit_cost⟩],
        products := products1.map (fun x =>
          if x.id == product.id then
            { x with stock_quantity := product.stock_quantity + qty,
                     cost_price := unit_cost, price := selling_price }
          else x) }

/-! ## Reporting -/

/-- Whether an order contributes to `sales_stats` for the window
`[start, endT)`: status in `{completed, returned}` and created in the
window. -/
def orderInWindow (start endT : Int) (o : Order) : Bool :=
  (o.status == OrderStatus.completed || o.status == OrderStatus.returned)
    && (decide (start ≤ o.created_at) && decide (o.created_at < endT))

/-- Whether an order return contributes to `sales_stats` for the window
`[start, endT)`: the return itself (not the original order) was created
in the window. -/
def returnInWindow (start endT : Int) (r : OrderReturn) : Bool :=
  decide (start ≤ r.created_at) && decide (r.created_at < endT)

/-- The Django `child__parent__field` join test used by the reporting
queries: a child row passes when its foreign key resolves to a parent row
and that parent passes `Q` (SQL inner join plus a parent-side filter). -/
def joinPass {P C : Type} (parents : List P) (pid : P → Nat) (cid : C → Nat)
    (Q : P → Bool) (ch : C) : Bool :=
  match parents.find? (fun p => pid p == cid ch) with
  | some p => Q p
  | none => false

/-- The `Sum(unit_price * quantity)` expression applied to an order item. -/
def lineGross (it : OrderItem) : ℚ := it.unit_price * (it.quantity : ℚ)

/-- The `Sum(unit_price * quantity)` expression applied to a return item. -/
def returnLineGross (ri : OrderReturnItem) : ℚ :=
  ri.unit_price * (ri.quantity : ℚ)

/-- The revenue component of `sales_stats(start, end)` in
`sales_dashboard`: gross `unit_price * quantity` over the items of
completed/returned orders created in the window, minus
`unit_price * quantity` over the return items whose return was created
in the window. -/
def sales_stats_revenue (db : DB) (start endT : Int) : ℚ :=
  let items := db.orderItems.filter
    (joinPass db.orders (fun o => o.id) (fun it => it.order)
      (orderInWindow start endT))
  let revenue := (items.map lineGross).sum
  let ritems := db.returnItems.filter
    (joinPass db.orderReturns (fun r => r.id) (fun ri => ri.order_return)
      (returnInWindow start endT))
  let returns_revenue := (ritems.map returnLineGross).sum
  revenue - returns_revenue

/-- Modelled from the spec's words for comparison with
`sales_stats_revenue`: the claimed revenue that subtracts the per-line
`discount_amount` from `unit_price` on the order-item side. -/
def sales_stats_revenue_claimed (db : DB) (start endT : Int) : ℚ :=
  let items := db.orderItems.filter
    (joinPass db.orders (fun o => o.id) (fun it => it.order)
      (orderInWindow start endT))
  let revenue :=
    (items.map (fun it =>
      (it.unit_price - it.discount_amount) * (it.quantity : ℚ))).sum
  let ritems := db.returnItems.filter
    (joinPass db.orderReturns (fun r => r.id) (fun ri => ri.order_return)
      (returnInWindow start endT))
  let returns_revenue := (ritems.map returnLineGross).sum
  revenue - returns_revenue

/-! ## Operation sequences (for the stock invariant) -/

/-- The stock-mutating operations quantified over by the invariant claim:
order placement and return processing. -/
inductive ShopOp where
  | doCheckout (cart : List (Nat × Nat)) (name phone address method1 : String)
      (amount1 : MoneyField) (ref1 method2 : String) (amount2 : MoneyField)
      (ref2 : String) (now : Int) (newOrderId newCustomerId : Nat)
  | doReturn (orderId : Nat) (reason refund_method : String)
      (req : Nat → Option Int) (newReturnId : Nat) (now : Int)

/-- Apply one operation to the database (an aborted request leaves the
database unchanged). -/
def applyOp (db : DB) : ShopOp → DB
  | .doCheckout cart name phone address m1 a1 r1 m2 a2 r2 now oid cid =>
    (checkout db cart name phone address m1 a1 r1 m2 a2 r2 now oid cid).1
  | .doReturn orderId reason rm req rid now =>
    (return_order db orderId reason rm req rid now).getD db

/-! ## Generic list lemmas

Primary-key style reasoning: a `filter` by key that returns a singleton
pins down `find?`, `find?` commutes with key-preserving row updates, and
a flat sum over child rows joined to unique parents regroups as a nested
sum per parent. -/

/-- If filtering by `p` yields exactly `[a]`, then `find? p` yields `a`. -/
theorem find?_of_filter_eq_singleton {α : Type} {l : List α} {p : α → Bool}
    {a : α} (h : l.filter p = [a]) : l.find? p = some a := by
  induction l with
  | nil => simp at h
  | cons x xs ih =>
    by_cases hx : p x
    · rw [List.filter_cons_of_pos hx] at h
      rw [List.find?_cons_of_pos _ hx]
      exact congrArg some (List.cons.inj h).1
    · rw [List.filter_cons_of_neg hx] at h
      rw [List.find?_cons_of_neg _ hx]
      exact ih h

/-- The function `find?` commutes with a map that does not change the predicate. -/
theorem find?_map_pred {α : Type} (f : α → α) (p : α → Bool) (l : List α)
    (h : ∀ x, p (f x) = p x) : (l.map f).find? p = (l.find? p).map f := by
  induction l with
  | nil => rfl
  | cons x xs ih =>
    by_cases hx : p x
    · rw [List.map_cons, List.find?_cons_of_pos _ (by rw [h]; exact hx),
        List.find?_cons_of_pos _ hx]
      rfl
    · rw [List.map_cons,
        List.find?_cons_of_neg _ (by rw [h]; exact hx),
        List.find?_cons_of_neg _ hx, ih]

/-- Filtering after a `map` is the `map` of the composed filter. -/
theorem filter_comm_map {α β : Type} (f : α → β) (q : β → Bool) (l : List α) :
    (l.map f).filter q = (l.filter (fun x => q (f x))).map f := by
  induction l with
  | nil => rfl
  | cons x xs ih =>
    by_cases hx : q (f x)
    · rw [List.map_cons, List.filter_cons_of_pos hx,
        @List.filter_cons_of_pos α (fun y => q (f y)) x xs hx,
        List.map_cons, ih]
    · rw [List.map_cons, List.filter_cons_of_neg hx,
        @List.filter_cons_of_neg α (fun y => q (f y)) x xs hx, ih]

/-- Summing an indicator over parents with pairwise-distinct keys picks out
the first (hence only) parent whose key matches. -/
theorem sum_indicator_unique {P : Type} (parents : List P) (pid : P → Nat)
    (Q : P → Bool) (k : Nat) (v : ℚ)
    (hnd : (parents.map pid).Nodup) :
    ((parents.filter Q).map (fun p => if pid p == k then v else 0)).sum
      = (match parents.find? (fun p => pid p == k) with
         | some p => if Q p then v else 0
         | none => 0) := by
  induction parents with
  | nil => simp
  | cons p ps ih =>
    rw [List.map_cons, List.nodup_cons] at hnd
    obtain ⟨hp, hps⟩ := hnd
    by_cases hk : pid p = k
    · have hfind : (p :: ps).find? (fun x => pid x == k) = some p :=
        List.find?_cons_of_pos _ (by simp [hk])
      have hzero :
          ((ps.filter Q).map (fun x => if pid x == k then v else 0)).sum = 0 := by
        apply List.sum_eq_zero
        intro x hx
        obtain ⟨y, hy, hyx⟩ := List.mem_map.mp hx
        have hyk : pid y ≠ k := by
          intro hc
          exact hp (by
            rw [← hk] at hc
            exact hc ▸ List.mem_map_of_mem pid (List.mem_of_mem_filter hy))
        simp [hyk] at hyx
        exact hyx.symm
      by_cases hQ : Q p
      · rw [List.filter_cons_of_pos hQ, List.map_cons, List.sum_cons, hzero]
        simp only [hfind]
        rw [if_pos (by simp [hk]), if_pos hQ, add_zero]
      · rw [List.filter_cons_of_neg hQ, hzero]
        simp only [hfind]
        rw [if_neg hQ]
    · have hfind : (p :: ps).find? (fun x => pid x == k)
          = ps.find? (fun x => pid x == k) :=
        List.find?_cons_of_neg _ (by simp [hk])
      simp only [hfind]
      by_cases hQ : Q p
      · rw [List.filter_cons_of_pos hQ, List.map_cons, List.sum_cons,
          if_neg (by simp [hk]), zero_add]
        exact ih hps
      · rw [List.filter_cons_of_neg hQ]
        exact ih hps

/-- Regrouping a flat sum over child rows, each joined via `find?` to a
parent with a `Nodup` key column, as a sum per parent of the sums of its
children.  This is the SQL aggregation identity used by the reporting
claims. -/
theorem sum_group_by_parent {P C : Type} (parents : List P) (children : List C)
    (pid : P → Nat) (cid : C → Nat) (Q : P → Bool) (f : C → ℚ)
    (hnd : (parents.map pid).Nodup) :
    ((children.filter (joinPass parents pid cid Q)).map f).sum
      = ((parents.filter Q).map (fun p =>
          ((children.filter (fun ch => cid ch == pid p)).map f).sum)).sum := by
  induction children with
  | nil =>
    simp only [List.filter_nil, List.map_nil, List.sum_nil]
    symm
    apply List.sum_eq_zero
    intro x hx
    obtain ⟨y, _, hyx⟩ := List.mem_map.mp hx
    exact hyx.symm
  | cons ch rest ih =>
    have hsplit : ∀ p : P,
        (((ch :: rest).filter (fun c => cid c == pid p)).map f).sum
          = (if pid p == cid ch then f ch else 0)
            + ((rest.filter (fun c => cid c == pid p)).map f).sum := by
      intro p
      by_cases hc : cid ch = pid p
      · rw [List.filter_cons_of_pos (by simp [hc]), List.map_cons,
          List.sum_cons, if_pos (by simp [hc])]
      · rw [List.filter_cons_of_neg (by simp [hc]),
          if_neg (by simp only [beq_iff_eq]; exact fun h => hc h.symm),
          zero_add]
    have hrhs :
        ((parents.filter Q).map (fun p =>
            (((ch :: rest).filter (fun c => cid c == pid p)).map f).sum)).sum
          = ((parents.filter Q).map (fun p =>
              (if pid p == cid ch then f ch else 0)
                + ((rest.filter (fun c => cid c == pid p)).map f).sum)).sum :=
      congrArg _ (List.map_congr_left (fun p _ => hsplit p))
    rw [hrhs, List.sum_map_add,
      sum_indicator_unique parents pid Q (cid ch) (f ch) hnd, ← ih]
    cases hfind : parents.find? (fun p => pid p == cid ch) with
    | none =>
      have hpass : joinPass parents pid cid Q ch = false := by
        simp [joinPass, hfind]
      rw [List.filter_cons_of_neg (by simp [hpass])]
      simp only [hfind]
      rw [zero_add]
    | some p =>
      have hpass : joinPass parents pid cid Q ch = Q p := by
        simp [joinPass, hfind]
      simp only [hfind]
      by_cases hQ : Q p
      · rw [List.filter_cons_of_pos (by rw [hpass]; exact hQ),
          List.map_cons, List.sum_cons, if_pos hQ]
      · rw [List.filter_cons_of_neg (by rw [hpass]; exact hQ),
          if_neg hQ, zero_add]

/-! ## Concrete databases for witnesses and counterexamples -/

/-- The empty database. -/
def emptyDB : DB :=
  ⟨[], [], [], [], [], [], [], [], [], [], []⟩

/-- One active product: id 1, price 10, cost 6, discount 2, stock 5. -/
def exProduct : Product := ⟨1, "apple", 10, 6, 2, 5, none, "", true⟩

/-- A catalog holding only `exProduct`. -/
def exDB : DB := { emptyDB with products := [exProduct] }

/-- One completed order (created at time 5) whose single line has unit
price 10, discount 2, quantity 1. -/
def discountDB : DB :=
  { emptyDB with
    orders := [⟨1, "a", "p", "addr", 5, .completed⟩],
    orderItems := [⟨1, 1, 1, 1, 10, 2⟩] }

/-- A database holding a single order in `returned` status. -/
def returnedOrderDB : DB :=
  { emptyDB with orders := [⟨7, "n", "p", "a", 0, .returned⟩] }

/-- A database holding a single order in `pending` status. -/
def pendingOrderDB : DB :=
  { emptyDB with orders := [⟨3, "n", "p", "a", 0, .pending⟩] }

/-- A database holding one unpaid credit entry. -/
def creditDB : DB :=
  { emptyDB with
    customers := [⟨1, "n", "p", "a"⟩],
    credits := [⟨1, 1, none, "sugar", 2, 60, false, none⟩] }

/-- A completed order for 3 units of `exProduct` at unit price 10, eligible
for returns. -/
def retDB : DB :=
  { emptyDB with
    products := [exProduct],
    orders := [⟨1, "n", "p", "a", 0, .completed⟩],
    orderItems := [⟨10, 1, 1, 3, 10, 0⟩] }

/-! ## C1: sales_stats revenue -/

/-- C1 counterexample: for the window `[0, 10)` over a database with one
completed order whose single line has unit price 10, discount 2 and
quantity 1 (and no returns), the code computes revenue 10 — it does not
subtract the line's `discount_amount` — whereas the claimed formula
yields 8. -/
theorem sales_stats_revenue_counterexample :
    sales_stats_revenue discountDB 0 10 = 10
      ∧ sales_stats_revenue_claimed discountDB 0 10 = 8 := by
  constructor <;>
    norm_num [sales_stats_revenue, sales_stats_revenue_claimed, discountDB,
      emptyDB, joinPass, orderInWindow, returnInWindow, lineGross,
      returnLineGross]

/-- C1 (amended): for pairwise-distinct order ids and return ids, the
`sales_stats` revenue for the window `[s, e)` equals the sum over
completed/returned orders created in the window of their items' gross
`unit_price * quantity`, minus the sum over order returns created in the
window of their items' `unit_price * quantity`; the per-line
`discount_amount` is not subtracted. -/
theorem sales_stats_revenue_eq_grouped (db : DB) (s e : Int)
    (hno : (db.orders.map (fun o => o.id)).Nodup)
    (hnr : (db.orderReturns.map (fun r => r.id)).Nodup) :
    sales_stats_revenue db s e =
      ((db.orders.filter (orderInWindow s e)).map (fun o =>
          ((db.orderItems.filter (fun it => it.order == o.id)).map
            lineGross).sum)).sum
      - ((db.orderReturns.filter (returnInWindow s e)).map (fun r =>
          ((db.returnItems.filter (fun ri => ri.order_return == r.id)).map
            returnLineGross).sum)).sum := by
  have h1 := sum_group_by_parent db.orders db.orderItems (fun o => o.id)
    (fun it => it.order) (orderInWindow s e) lineGross hno
  have h2 := sum_group_by_parent db.orderReturns db.returnItems
    (fun r => r.id) (fun ri => ri.order_return) (returnInWindow s e)
    returnLineGross hnr
  calc sales_stats_revenue db s e
      = ((db.orderItems.filter (joinPass db.orders (fun o => o.id)
            (fun it => it.order) (orderInWindow s e))).map lineGross).sum
        - ((db.returnItems.filter (joinPass db.orderReturns (fun r => r.id)
            (fun ri => ri.order_return) (returnInWindow s e))).map
            returnLineGross).sum := rfl
    _ = _ := by rw [h1, h2]

/-- Witness for C1 (amended) at the concrete database `discountDB` and the
window `[0, 10)`. -/
theorem sales_stats_revenue_eq_grouped_witness :
    sales_stats_revenue discountDB 0 10 =
      ((discountDB.orders.filter (orderInWindow 0 10)).map (fun o =>
          ((discountDB.orderItems.filter (fun it => it.order == o.id)).map
            lineGross).sum)).sum
      - ((discountDB.orderReturns.filter (returnInWindow 0 10)).map (fun r =>
          ((discountDB.returnItems.filter
              (fun ri => ri.order_return == r.id)).map
            returnLineGross).sum)).sum :=
  sales_stats_revenue_eq_grouped discountDB 0 10 (by decide) (by decide)

/-! ## C5: mark_completed transitions -/

/-- C5 counterexample: `mark_order_completed` on an order in `returned`
status transitions it to `completed`, so `pending → completed` is not
the only transition it performs. -/
theorem mark_order_completed_counterexample :
    returnedOrderDB.orders.map (fun o => o.status) = [OrderStatus.returned]
      ∧ (mark_order_completed returnedOrderDB 7).map
          (fun d => d.orders.map (fun o => o.status))
        = some [OrderStatus.completed] := by
  constructor <;> decide

/-- C5 (amended): `mark_order_completed` transitions any order whose status
is not `completed` — whatever that status is — to `completed`, leaves
every other order untouched, and is idempotent: a second call returns
the database unchanged.  When the order is already completed the first
call is already a no-op. -/
theorem mark_order_completed_spec (db : DB) (orderId : Nat) (o : Order)
    (hfind : db.orders.find? (fun x => x.id == orderId) = some o) :
    ∃ db2, mark_order_completed db orderId = some db2
      ∧ db2.orders.find? (fun x => x.id == orderId)
          = some { o with status := .completed }
      ∧ mark_order_completed db2 orderId = some db2
      ∧ (∀ x ∈ db.orders, x.id ≠ orderId → x ∈ db2.orders)
      ∧ (o.status = .completed → db2 = db) := by
  have hido : (o.id == orderId) = true :=
    List.find?_some (p := fun x : Order => x.id == orderId) hfind
  by_cases hs : o.status = OrderStatus.completed
  · refine ⟨db, ?_, ?_, ?_, fun x hx _ => hx, fun _ => rfl⟩
    · unfold mark_order_completed
      simp only [hfind]
      rw [if_neg (by simp [hs])]
    · rw [hfind]
      have : { o with status := OrderStatus.completed } = o := by
        cases o
        simp_all
      rw [this]
    · unfold mark_order_completed
      simp only [hfind]
      rw [if_neg (by simp [hs])]
  · have hpred : ∀ x : Order,
        ((if x.id == orderId then { o with status := OrderStatus.completed }
          else x).id == orderId) = (x.id == orderId) := by
      intro x
      by_cases hx : x.id == orderId
      · rw [if_pos hx]
        simp only at hido ⊢
        rw [hido, hx]
      · rw [if_neg hx]
    have hfind2 : (db.orders.map (fun x =>
          if x.id == orderId then { o with status := OrderStatus.completed }
          else x)).find? (fun x => x.id == orderId)
        = some { o with status := OrderStatus.completed } := by
      have hido2 : o.id = orderId := by simpa using hido
      rw [find?_map_pred _ _ _ hpred, hfind]
      simp [hido2]
    refine ⟨{ db with orders := db.orders.map (fun x =>
        if x.id == orderId then { o with status := OrderStatus.completed }
        else x) }, ?_, ?_, ?_, ?_, fun hc => absurd hc hs⟩
    · unfold mark_order_completed
      simp only [hfind]
      rw [if_pos hs]
    · exact hfind2
    · unfold mark_order_completed
      simp only [hfind2]
      rw [if_neg (by simp)]
    · intro x hx hne
      have hxx : (if x.id == orderId then
          { o with status := OrderStatus.completed } else x) = x := by
        rw [if_neg (by simp [hne])]
      exact List.mem_map.mpr ⟨x, hx, hxx⟩

/-- Witness for C5 (amended): marking the pending order of
`pendingOrderDB` completed. -/
theorem mark_order_completed_spec_witness :
    ∃ db2, mark_order_completed pendingOrderDB 3 = some db2
      ∧ db2.orders.find? (fun x => x.id == 3)
          = some { (⟨3, "n", "p", "a", 0, .pending⟩ : Order) with
              status := .completed }
      ∧ mark_order_completed db2 3 = some db2
      ∧ (∀ x ∈ pendingOrderDB.orders, x.id ≠ 3 → x ∈ db2.orders)
      ∧ ((⟨3, "n", "p", "a", 0, .pending⟩ : Order).status = .completed →
          db2 = pendingOrderDB) :=
  mark_order_completed_spec pendingOrderDB 3 ⟨3, "n", "p", "a", 0, .pending⟩
    (by decide)

/-! ## C7: mark_credit_paid idempotence -/

/-- C7: marking an unpaid credit entry paid twice leaves `is_paid = true`
with `date_paid` stamped by the first call and unchanged by the second
(the second call returns the database unchanged), and exactly one
`credit_paid` audit row is produced in total. -/
theorem mark_credit_paid_idempotent (db : DB) (creditId : Nat) (t1 t2 : Int)
    (c : CreditEntry)
    (hfind : db.credits.find? (fun x => x.id == creditId) = some c)
    (hunpaid : c.is_paid = false) :
    ∃ db2, mark_credit_paid db creditId t1 = some db2
      ∧ mark_credit_paid db2 creditId t2 = some db2
      ∧ db2.credits.find? (fun x => x.id == creditId)
          = some { c with is_paid := true, date_paid := some t1 }
      ∧ db2.auditLog = db.auditLog
          ++ [⟨"credit_paid", "CreditEntry", c.id, "is_paid", "False", "True"⟩] := by
  have hidc : (c.id == creditId) = true :=
    List.find?_some (p := fun x : CreditEntry => x.id == creditId) hfind
  have hpred : ∀ x : CreditEntry,
      ((if x.id == creditId then
          { c with is_paid := true, date_paid := some t1 }
        else x).id == creditId) = (x.id == creditId) := by
    intro x
    by_cases hx : x.id == creditId
    · rw [if_pos hx]
      simp only at hidc ⊢
      rw [hidc, hx]
    · rw [if_neg hx]
  have hfind2 : (db.credits.map (fun x =>
        if x.id == creditId then
          { c with is_paid := true, date_paid := some t1 }
        else x)).find? (fun x => x.id == creditId)
      = some { c with is_paid := true, date_paid := some t1 } := by
    have hidc2 : c.id = creditId := by simpa using hidc
    rw [find?_map_pred _ _ _ hpred, hfind]
    simp [hidc2]
  refine ⟨{ db with
      credits := db.credits.map (fun x =>
        if x.id == creditId then
          { c with is_paid := true, date_paid := some t1 }
        else x),
      auditLog := db.auditLog ++
        [⟨"credit_paid", "CreditEntry", c.id, "is_paid", "False", "True"⟩] },
    ?_, ?_, ?_, ?_⟩
  · unfold mark_credit_paid
    simp only [hfind]
    rw [if_neg (by simp [hunpaid])]
  · unfold mark_credit_paid
    simp only [hfind2]
    simp
  · exact hfind2
  · rfl

/-- Witness for C7 at the concrete database `creditDB`. -/
theorem mark_credit_paid_idempotent_witness :
    ∃ db2, mark_credit_paid creditDB 1 5 = some db2
      ∧ mark_credit_paid db2 1 9 = some db2
      ∧ db2.credits.find? (fun x => x.id == 1)
          = some { (⟨1, 1, none, "sugar", 2, 60, false, none⟩ : CreditEntry)
              with is_paid := true, date_paid := some 5 }
      ∧ db2.auditLog = creditDB.auditLog
          ++ [⟨"credit_paid", "CreditEntry", 1, "is_paid", "False", "True"⟩] :=
  mark_credit_paid_idempotent creditDB 1 5 9
    ⟨1, 1, none, "sugar", 2, 60, false, none⟩ (by decide) rfl

/-! ## C6: purchase recording -/

/-- C6: recording a purchase of `q ≥ 1` units at unit cost `c > 0` and
selling price `p > 0` against an existing product appends exactly one
`Purchase` and one `PurchaseItem` row, adds `q` to the product's stock,
and overwrites its `cost_price` and `price` with the just-entered
values. -/
theorem record_purchase_updates (db : DB) (wid pid : Nat) (q : Nat)
    (c p : ℚ) (date : Int) (npid nprod : Nat) (prod : Product)
    (hfind : db.products.find? (fun x => x.id == pid) = some prod)
    (hq : 1 ≤ q) (hc : 0 < c) (hp : 0 < p) :
    ∃ db2, record_purchase db wid (some pid) "" (.value (q : Int)) c p date
        npid nprod = some db2
      ∧ db2.products.find? (fun x => x.id == pid)
          = some { prod with
              stock_quantity := prod.stock_quantity + (q : Int),
              cost_price := c, price := p }
      ∧ db2.purchases = db.purchases ++ [⟨npid, wid, date⟩]
      ∧ db2.purchaseItems = db.purchaseItems ++ [⟨npid, pid, q, c⟩] := by
  have hidp : (prod.id == pid) = true :=
    List.find?_some (p := fun x : Product => x.id == pid) hfind
  have hidp2 : prod.id = pid := by simpa using hidp
  subst hidp2
  have hq1 : ¬((q : Int) < 1) := by
    exact_mod_cast not_lt.mpr (by exact_mod_cast hq)
  have hqty : (if (q : Int) < 1 then 1 else (q : Int)).toNat = q := by
    rw [if_neg hq1]
    exact Int.toNat_natCast q
  have hpred : ∀ x : Product,
      ((if x.id == prod.id then
          { x with stock_quantity := prod.stock_quantity + (q : Int),
                   cost_price := c, price := p }
        else x).id == prod.id) = (x.id == prod.id) := by
    intro x
    by_cases hx : x.id == prod.id
    · rw [if_pos hx]
    · rw [if_neg hx]
  refine ⟨{ db with
      purchases := db.purchases ++ [⟨npid, wid, date⟩],
      purchaseItems := db.purchaseItems ++ [⟨npid, prod.id, q, c⟩],
      products := db.products.map (fun x =>
        if x.id == prod.id then
          { x with stock_quantity := prod.stock_quantity + (q : Int),
                   cost_price := c, price := p }
        else x) }, ?_, ?_, rfl, rfl⟩
  · unfold record_purchase
    rw [if_neg (not_le.mpr hc), if_neg (not_le.mpr hp)]
    simp only [FormField.intCaught, hfind, hqty]
  · rw [find?_map_pred _ _ _ hpred, hfind]
    simp

/-- Witness for C6: a purchase of 10 units at unit cost 5 and selling
price 8 against `exProduct` (prior stock 5) yields stock 15, cost 5,
price 8, and the two new rows. -/
theorem record_purchase_updates_witness :
    ∃ db2, record_purchase exDB 1 (some 1) "" (.value (10 : Int)) 5 8 0 1 2
        = some db2
      ∧ db2.products.find? (fun x => x.id == 1)
          = some { exProduct with
              stock_quantity := exProduct.stock_quantity + (10 : Int),
              cost_price := 5, price := 8 }
      ∧ db2.purchases = exDB.purchases ++ [⟨1, 1, 0⟩]
      ∧ db2.purchaseItems = exDB.purchaseItems ++ [⟨1, 1, 10, 5⟩] :=
  record_purchase_updates exDB 1 1 10 5 8 0 1 2 exProduct (by decide)
    (by norm_num) (by norm_num) (by norm_num)

/-! ## C8: numeric parse fallback -/

/-- C8 counterexample: `update_cart` — one of the operations the claim
covers — fails with an uncaught `ValueError` (`none`) on an unparseable
quantity instead of defaulting it to 1; `add_credit` likewise fails on
an unparseable quantity.  A parseable quantity succeeds on the same
cart, showing `none` really is the failure path. -/
theorem update_cart_unparseable_counterexample :
    update_cart [(1, 2)] 1 .unparseable = none
      ∧ update_cart [(1, 2)] 1 (.value 1) = some [(1, 1)]
      ∧ add_credit emptyDB none "n" "" "item" none .unparseable .missing 1 1
        = none := by
  refine ⟨rfl, by decide, rfl⟩

/-- C8 (amended): the `try/except` fallback to 1 (or 0 for the credit
amount) applies to `add_to_cart`, `scan_add_to_cart`,
`scan_stock_increment` and the `add_credit` amount field — an
unparseable input behaves exactly like the fallback value — but
`update_cart` and the `add_credit` quantity field have no handler and
fail (`none`) on unparseable input. -/
theorem numeric_parse_fallback (cart : List (Nat × Nat)) (productId : Nat)
    (db : DB) (code : String) (customerId : Option Nat)
    (cname cphone iname : String) (prodId : Option Nat) (amt : MoneyField)
    (ncus ncred : Nat) :
    add_to_cart cart productId true .unparseable
        = add_to_cart cart productId true (.value 1)
    ∧ scan_add_to_cart db cart code .unparseable
        = scan_add_to_cart db cart code (.value 1)
    ∧ scan_stock_increment db code .unparseable
        = scan_stock_increment db code (.value 1)
    ∧ add_credit db customerId cname cphone iname prodId (.value 1)
          .unparseable ncus ncred
        = add_credit db customerId cname cphone iname prodId (.value 1)
          (.value 0) ncus ncred
    ∧ update_cart cart productId .unparseable = none
    ∧ add_credit db customerId cname cphone iname prodId .unparseable amt
        ncus ncred = none :=
  ⟨rfl, rfl, rfl, rfl, rfl, rfl⟩

/-! ## C9: checkout requires the customer fields -/

/-- C9: a checkout POST with a non-empty cart creates an order exactly when
customer name, phone and address are all non-empty; when any of them is
empty the whole request is a no-op — the database (orders, items,
payments, stock, audit) and the session cart are returned unchanged and
no order id is produced. -/
theorem checkout_customer_fields_guard (db : DB) (cart : List (Nat × Nat))
    (name phone address m1 : String) (a1 : MoneyField) (r1 m2 : String)
    (a2 : MoneyField) (r2 : String) (now : Int) (oid ncid : Nat)
    (hcart : cart ≠ []) :
    (name ≠ "" ∧ phone ≠ "" ∧ address ≠ "" →
        (checkout db cart name phone address m1 a1 r1 m2 a2 r2 now oid
            ncid).2.2 = some oid
        ∧ (checkout db cart name phone address m1 a1 r1 m2 a2 r2 now oid
            ncid).1.orders
          = db.orders ++ [⟨oid, name, phone, address, now, .pending⟩])
    ∧ ((name = "" ∨ phone = "" ∨ address = "") →
        checkout db cart name phone address m1 a1 r1 m2 a2 r2 now oid ncid
          = (db, cart, none)) := by
  constructor
  · intro h
    unfold checkout
    rw [if_neg hcart, if_pos h]
    exact ⟨rfl, rfl⟩
  · intro hmiss
    unfold checkout
    rw [if_neg hcart,
      if_neg (by rcases hmiss with h | h | h <;> simp [h])]

/-- Witness for C9 at a concrete cart and database: all fields present on
one side of the conjunction, an empty address on the other is covered by
instantiating the theorem a second way is not needed — the single
instantiation below exercises both implications. -/
theorem checkout_customer_fields_guard_witness :
    ("a" ≠ "" ∧ "p" ≠ "" ∧ "ad" ≠ "" →
        (checkout exDB [(1, 2)] "a" "p" "ad" "cash" (.value 16) "" ""
            .missing "" 0 1 1).2.2 = some 1
        ∧ (checkout exDB [(1, 2)] "a" "p" "ad" "cash" (.value 16) "" ""
            .missing "" 0 1 1).1.orders
          = exDB.orders ++ [⟨1, "a", "p", "ad", 0, .pending⟩])
    ∧ (("a" = "" ∨ "p" = "" ∨ "ad" = "") →
        checkout exDB [(1, 2)] "a" "p" "ad" "cash" (.value 16) "" ""
          .missing "" 0 1 1 = (exDB, [(1, 2)], none)) :=
  checkout_customer_fields_guard exDB [(1, 2)] "a" "p" "ad" "cash"
    (.value 16) "" "" .missing "" 0 1 1 (by decide)

/-! ## C2: checkout stock clamping and audit -/

/-- The per-line stock update of `checkout` equals `max (s − q) 0`. -/
theorem clampStock_eq_max (s : Int) (q : Nat) :
    clampStock s q = max (s - (q : Int)) 0 := by
  unfold clampStock
  split <;> omega

/-- The per-line stock update of `checkout` never writes a negative
stock. -/
theorem clampStock_nonneg (s : Int) (q : Nat) : 0 ≤ clampStock s q := by
  unfold clampStock
  split <;> omega

/-- C2: a checkout with all customer fields present always succeeds (stock
shortfall never fails the order), leaves the product whose cart line
requests quantity `q` with stock `max (s − q) 0`, and appends exactly one
`stock_change` audit row for that product recording old value `s` and
new value `max (s − q) 0`.  `huniq` states that `p` is the unique
catalog row with its primary key. -/
theorem checkout_stock_clamped_and_audited (db : DB) (cart : List (Nat × Nat))
    (name phone address m1 : String) (a1 : MoneyField) (r1 m2 : String)
    (a2 : MoneyField) (r2 : String) (now : Int) (oid ncid : Nat)
    (p : Product) (q : Nat)
    (hn : name ≠ "") (hph : phone ≠ "") (ha : address ≠ "")
    (hq : cartLookup cart p.id = some q)
    (huniq : db.products.filter (fun x => x.id == p.id) = [p]) :
    (checkout db cart name phone address m1 a1 r1 m2 a2 r2 now oid ncid).2.2
        = some oid
    ∧ (checkout db cart name phone address m1 a1 r1 m2 a2 r2 now oid
          ncid).1.products.find? (fun x => x.id == p.id)
        = some { p with
            stock_quantity := max (p.stock_quantity - (q : Int)) 0 }
    ∧ ((checkout db cart name phone address m1 a1 r1 m2 a2 r2 now oid
          ncid).1.auditLog.drop db.auditLog.length).filter
        (fun en => en.action == "stock_change" && en.object_id == p.id)
      = [⟨"stock_change", "Product", p.id, "stock_quantity",
          toString p.stock_quantity,
          toString (max (p.stock_quantity - (q : Int)) 0)⟩] := by
  have hcart : cart ≠ [] := by
    intro hc
    rw [hc] at hq
    simp [cartLookup] at hq
  have hck : checkout db cart name phone address m1 a1 r1 m2 a2 r2 now oid ncid
      = ({ db with
          customers := upsertCustomer db.customers name phone address ncid,
          orders := db.orders ++ [⟨oid, name, phone, address, now, .pending⟩],
          orderItems := db.orderItems ++
            ((List.range (db.products.filter (fun x =>
                (cartLookup cart x.id).isSome)).length).zip
              (db.products.filter (fun x =>
                (cartLookup cart x.id).isSome))).map (fun pr =>
              { id := db.orderItems.length + pr.1, order := oid,
                product := pr.2.id,
                quantity := (cartLookup cart pr.2.id).getD 0,
                unit_price := pr.2.price,
                discount_amount := pr.2.discount_price }),
          payments := db.payments ++
            ((if m1 ≠ "" ∧ 0 < a1.floatCaught 0 then
                [⟨oid, m1, a1.floatCaught 0, r1⟩] else [])
              ++ (if m2 ≠ "" ∧ 0 < a2.floatCaught 0 then
                [⟨oid, m2, a2.floatCaught 0, r2⟩] else [])),
          products := db.products.map (fun x =>
            match cartLookup cart x.id with
            | some qq =>
              { x with stock_quantity := clampStock x.stock_quantity qq }
            | none => x),
          auditLog := db.auditLog ++
            (db.products.filter (fun x =>
                (cartLookup cart x.id).isSome)).map (fun x =>
              ⟨"stock_change", "Product", x.id, "stock_quantity",
                toString x.stock_quantity,
                toString (clampStock x.stock_quantity
                  ((cartLookup cart x.id).getD 0))⟩) },
        [], some oid) := by
    unfold checkout
    rw [if_neg hcart, if_pos ⟨hn, hph, ha⟩]
  rw [hck]
  refine ⟨rfl, ?_, ?_⟩
  · have hpredf : ∀ x : Product,
        (((match cartLookup cart x.id with
            | some qq =>
              { x with stock_quantity := clampStock x.stock_quantity qq }
            | none => x) : Product).id == p.id) = (x.id == p.id) := by
      intro x
      cases hcl : cartLookup cart x.id with
      | none => simp only [hcl]
      | some qq => simp only [hcl]
    rw [show ({ db with
        customers := upsertCustomer db.customers name phone address ncid,
        orders := db.orders ++ [⟨oid, name, phone, address, now, .pending⟩],
        orderItems := db.orderItems ++
          ((List.range (db.products.filter (fun x =>
              (cartLookup cart x.id).isSome)).length).zip
            (db.products.filter (fun x =>
              (cartLookup cart x.id).isSome))).map (fun pr =>
            { id := db.orderItems.length + pr.1, order := oid,
              product := pr.2.id,
              quantity := (cartLookup cart pr.2.id).getD 0,
              unit_price := pr.2.price,
              discount_amount := pr.2.discount_price }),
        payments := db.payments ++
          ((if m1 ≠ "" ∧ 0 < a1.floatCaught 0 then
              [⟨oid, m1, a1.floatCaught 0, r1⟩] else [])
            ++ (if m2 ≠ "" ∧ 0 < a2.floatCaught 0 then
              [⟨oid, m2, a2.floatCaught 0, r2⟩] else [])),
        products := db.products.map (fun x =>
          match cartLookup cart x.id with
          | some qq =>
            { x with stock_quantity := clampStock x.stock_quantity qq }
          | none => x),
        auditLog := db.auditLog ++
          (db.products.filter (fun x =>
              (cartLookup cart x.id).isSome)).map (fun x =>
            ⟨"stock_change", "Product", x.id, "stock_quantity",
              toString x.stock_quantity,
              toString (clampStock x.stock_quantity
                ((cartLookup cart x.id).getD 0))⟩) } : DB).products
      = db.products.map (fun x =>
          match cartLookup cart x.id with
          | some qq =>
            { x with stock_quantity := clampStock x.stock_quantity qq }
          | none => x) from rfl]
    rw [find?_map_pred _ _ _ hpredf, find?_of_filter_eq_singleton huniq]
    simp only [Option.map]
    simp only [hq]
    rw [clampStock_eq_max]
  · rw [show ∀ y : List AuditLog, ({ db with
        customers := upsertCustomer db.customers name phone address ncid,
        orders := db.orders ++ [⟨oid, name, phone, address, now, .pending⟩],
        orderItems := db.orderItems ++
          ((List.range (db.products.filter (fun x =>
              (cartLookup cart x.id).isSome)).length).zip
            (db.products.filter (fun x =>
              (cartLookup cart x.id).isSome))).map (fun pr =>
            { id := db.orderItems.length + pr.1, order := oid,
              product := pr.2.id,
              quantity := (cartLookup cart pr.2.id).getD 0,
              unit_price := pr.2.price,
              discount_amount := pr.2.discount_price }),
        payments := db.payments ++
          ((if m1 ≠ "" ∧ 0 < a1.floatCaught 0 then
              [⟨oid, m1, a1.floatCaught 0, r1⟩] else [])
            ++ (if m2 ≠ "" ∧ 0 < a2.floatCaught 0 then
              [⟨oid, m2, a2.floatCaught 0, r2⟩] else [])),
        products := db.products.map (fun x =>
          match cartLookup cart x.id with
          | some qq =>
            { x with stock_quantity := clampStock x.stock_quantity qq }
          | none => x),
        auditLog := y } : DB).auditLog = y from fun y => rfl]
    rw [List.drop_left]
    rw [filter_comm_map]
    have hpb : ∀ x : Product,
        ((("stock_change" : String) == "stock_change")
            && (x.id == p.id)) = (x.id == p.id) := by
      intro x
      rw [beq_self_eq_true]
      exact Bool.true_and _
    rw [List.filter_congr (fun x _ => hpb x)]
    rw [List.filter_filter]
    rw [List.filter_congr (fun (x : Product) _ =>
      Bool.and_comm (x.id == p.id) ((cartLookup cart x.id).isSome))]
    rw [← List.filter_filter, huniq,
      List.filter_cons_of_pos (by rw [hq]; rfl), List.filter_nil,
      List.map_cons, List.map_nil]
    simp only [hq, Option.getD_some]
    rw [clampStock_eq_max]

/-- Witness for C2: checking out 2 units of `exProduct` (stock 5) from a
one-line cart. -/
theorem checkout_stock_clamped_and_audited_witness :
    (checkout exDB [(1, 2)] "a" "p" "ad" "cash" (.value 16) "" "" .missing
        "" 0 1 1).2.2 = some 1
    ∧ (checkout exDB [(1, 2)] "a" "p" "ad" "cash" (.value 16) "" "" .missing
          "" 0 1 1).1.products.find? (fun x => x.id == exProduct.id)
        = some { exProduct with
            stock_quantity := max (exProduct.stock_quantity - (2 : Int)) 0 }
    ∧ ((checkout exDB [(1, 2)] "a" "p" "ad" "cash" (.value 16) "" "" .missing
          "" 0 1 1).1.auditLog.drop exDB.auditLog.length).filter
        (fun en => en.action == "stock_change" && en.object_id == exProduct.id)
      = [⟨"stock_change", "Product", exProduct.id, "stock_quantity",
          toString exProduct.stock_quantity,
          toString (max (exProduct.stock_quantity - (2 : Int)) 0)⟩] :=
  checkout_stock_clamped_and_audited exDB [(1, 2)] "a" "p" "ad" "cash"
    (.value 16) "" "" .missing "" 0 1 1 exProduct 2 (by decide) (by decide)
    (by decide) rfl (by decide)

/-! ## C3: the stock non-negativity invariant -/

/-- A checkout never writes a negative stock: every product row of the
resulting database is either untouched or clamped at zero. -/
theorem checkout_preserves_stock_nonneg (db : DB) (cart : List (Nat × Nat))
    (name phone address m1 : String) (a1 : MoneyField) (r1 m2 : String)
    (a2 : MoneyField) (r2 : String) (now : Int) (oid ncid : Nat)
    (h : ∀ x ∈ db.products, 0 ≤ x.stock_quantity) :
    ∀ x ∈ (checkout db cart name phone address m1 a1 r1 m2 a2 r2 now oid
        ncid).1.products, 0 ≤ x.stock_quantity := by
  unfold checkout
  by_cases hc : cart = []
  · rw [if_pos hc]
    exact h
  · rw [if_neg hc]
    by_cases hg : name ≠ "" ∧ phone ≠ "" ∧ address ≠ ""
    · rw [if_pos hg]
      intro x hx
      obtain ⟨y, hy, hyx⟩ := List.mem_map.mp hx
      rw [← hyx]
      cases hcl : cartLookup cart y.id with
      | none => simp only [hcl]; exact h y hy
      | some qq => simp only [hcl]; exact clampStock_nonneg _ _
    · rw [if_neg hg]
      exact h

/-- The `return_order` loop never writes a negative stock as long as the
catalog it was loaded from has none: each processed line writes the
loaded (pre-return) stock plus the returned quantity. -/
theorem returnStep_fold_stock_nonneg (db : DB) (req : Nat → Option Int)
    (rid : Nat) (hdb : ∀ x ∈ db.products, 0 ≤ x.stock_quantity)
    (items : List OrderItem) :
    ∀ acc : List Product × ℚ × List OrderReturnItem,
      (∀ x ∈ acc.1, 0 ≤ x.stock_quantity) →
      ∀ x ∈ (items.foldl (returnStep db req rid) acc).1,
        0 ≤ x.stock_quantity := by
  induction items with
  | nil => intro acc hacc; exact hacc
  | cons it rest ih =>
    intro acc hacc
    rw [List.foldl_cons]
    apply ih
    simp only [returnStep]
    split
    · intro x hx
      obtain ⟨y, hy, hyx⟩ := List.mem_map.mp hx
      rw [← hyx]
      by_cases hid : y.id == it.product
      · rw [if_pos hid]
        cases hfp : db.products.find? (fun pp => pp.id == it.product) with
        | none => simp only [hfp]; exact le_refl 0
        | some p0 =>
          simp only [hfp]
          have h0 := hdb p0 (List.mem_of_find?_eq_some hfp)
          omega
      · rw [if_neg hid]
        exact hacc y hy
    · exact hacc

/-- A return never writes a negative stock when starting from a
non-negative catalog. -/
theorem return_order_preserves_stock_nonneg (db : DB) (orderId : Nat)
    (reason rm : String) (req : Nat → Option Int) (rid : Nat) (now : Int)
    (h : ∀ x ∈ db.products, 0 ≤ x.stock_quantity) :
    ∀ x ∈ ((return_order db orderId reason rm req rid now).getD db).products,
      0 ≤ x.stock_quantity := by
  unfold return_order
  cases hf : db.orders.find? (fun o => o.id == orderId) with
  | none => simp only [hf, Option.getD_none]; exact h
  | some o =>
    simp only [hf, Option.getD_some]
    exact returnStep_fold_stock_nonneg db req rid h
      (db.orderItems.filter (fun it => it.order == orderId))
      (db.products, 0, []) h

/-- C3: starting from a database in which every product's stock is
non-negative, any finite sequence of order placements (checkout) and
return processings keeps every product's stock non-negative. -/
theorem stock_nonneg_invariant (db : DB) (ops : List ShopOp)
    (h : ∀ x ∈ db.products, 0 ≤ x.stock_quantity) :
    ∀ x ∈ (ops.foldl applyOp db).products, 0 ≤ x.stock_quantity := by
  induction ops generalizing db with
  | nil => exact h
  | cons op rest ih =>
    rw [List.foldl_cons]
    apply ih
    cases op with
    | doCheckout cart name phone address m1 a1 r1 m2 a2 r2 now oid ncid =>
      exact checkout_preserves_stock_nonneg db cart name phone address m1 a1
        r1 m2 a2 r2 now oid ncid h
    | doReturn orderId reason rm req rid now =>
      exact return_order_preserves_stock_nonneg db orderId reason rm req rid
        now h

/-- Witness for C3: after a checkout of 2 units and a return of 1 unit on
the one-product catalog, the product row (now at stock 4) has
non-negative stock. -/
theorem stock_nonneg_invariant_witness :
    0 ≤ ({ exProduct with stock_quantity := 4 } : Product).stock_quantity :=
  stock_nonneg_invariant exDB
    [ShopOp.doCheckout [(1, 2)] "a" "p" "ad" "cash" (.value 16) "" ""
        .missing "" 0 1 1,
      ShopOp.doReturn 1 "damaged" "cash" (fun _ => some 1) 2 3]
    (by decide) { exProduct with stock_quantity := 4 } (by decide)

/-! ## C10: a return whose every line is non-positive or unparseable -/

/-- Lines whose parsed requested quantity is not positive leave the
`return_order` loop accumulator untouched. -/
theorem returnStep_fold_noop (db : DB) (req : Nat → Option Int) (rid : Nat)
    (items : List OrderItem)
    (h : ∀ it ∈ items, (req it.id).getD 0 ≤ 0) :
    ∀ acc : List Product × ℚ × List OrderReturnItem,
      items.foldl (returnStep db req rid) acc = acc := by
  induction items with
  | nil => intro acc; rfl
  | cons it rest ih =>
    intro acc
    rw [List.foldl_cons]
    have hstep : returnStep db req rid acc it = acc := by
      simp only [returnStep]
      rw [if_neg (by
        have := h it (List.mem_cons_self it rest)
        omega)]
    rw [hstep]
    exact ih (fun x hx => h x (List.mem_cons_of_mem _ hx)) acc

/-- C10: a return request whose every per-line quantity parses to a
non-positive value (or fails to parse, which defaults to 0) still
creates the `OrderReturn` row, creates no `OrderReturnItem` and no
refund payment, leaves every product's stock unchanged, and still
forces the order's status to `returned`. -/
theorem return_order_nonpositive_lines (db : DB) (orderId : Nat)
    (reason rm : String) (req : Nat → Option Int) (rid : Nat) (now : Int)
    (hord : (db.orders.find? (fun o => o.id == orderId)).isSome = true)
    (hreq : ∀ it ∈ db.orderItems.filter (fun it => it.order == orderId),
        (req it.id).getD 0 ≤ 0) :
    ∃ db2, return_order db orderId reason rm req rid now = some db2
      ∧ db2.products = db.products
      ∧ db2.returnItems = db.returnItems
      ∧ db2.payments = db.payments
      ∧ db2.orderReturns
          = db.orderReturns ++ [⟨rid, orderId, reason, rm, now⟩]
      ∧ db2.orders = db.orders.map (fun o =>
          if o.id == orderId then { o with status := .returned } else o) := by
  obtain ⟨o, ho⟩ := Option.isSome_iff_exists.mp hord
  have hfold := returnStep_fold_noop db req rid
    (db.orderItems.filter (fun it => it.order == orderId)) hreq
    (db.products, 0, [])
  refine ⟨{ db with
      orderReturns := db.orderReturns ++ [⟨rid, orderId, reason, rm, now⟩],
      orders := db.orders.map (fun o =>
        if o.id == orderId then { o with status := .returned } else o) },
    ?_, rfl, rfl, rfl, rfl, rfl⟩
  unfold return_order
  simp only [ho, hfold]
  rw [if_neg (fun hcon => lt_irrefl 0 hcon.2)]
  simp

/-- Witness for C10: a return request on `retDB` whose only line parses to
0. -/
theorem return_order_nonpositive_lines_witness :
    ∃ db2, return_order retDB 1 "r" "cash" (fun _ => some 0) 4 6 = some db2
      ∧ db2.products = retDB.products
      ∧ db2.returnItems = retDB.returnItems
      ∧ db2.payments = retDB.payments
      ∧ db2.orderReturns = retDB.orderReturns ++ [⟨4, 1, "r", "cash", 6⟩]
      ∧ db2.orders = retDB.orders.map (fun o =>
          if o.id == 1 then { o with status := .returned } else o) :=
  return_order_nonpositive_lines retDB 1 "r" "cash" (fun _ => some 0) 4 6
    (by decide) (by decide)

/-! ## C4: per-line return processing -/

/-- The lines of a return request that are actually processed: each order
item whose parsed requested quantity is positive, paired with the
clamped returned quantity `min qty Q`. -/
def processedOf (req : Nat → Option Int) (items : List OrderItem) :
    List (OrderItem × Nat) :=
  items.filterMap (fun it =>
    if 0 < (req it.id).getD 0 then
      some (it, min ((req it.id).getD 0).toNat it.quantity)
    else none)

/-- The value of `processedOf` on a line with a positive parsed quantity. -/
theorem processedOf_cons_pos (req : Nat → Option Int) (it : OrderItem)
    (rest : List OrderItem) (hpos : 0 < (req it.id).getD 0) :
    processedOf req (it :: rest)
      = (it, min ((req it.id).getD 0).toNat it.quantity)
        :: processedOf req rest := by
  simp only [processedOf, List.filterMap_cons, if_pos hpos]

/-- The function `processedOf` skips a line with a non-positive parsed quantity. -/
theorem processedOf_cons_neg (req : Nat → Option Int) (it : OrderItem)
    (rest : List OrderItem) (hpos : ¬0 < (req it.id).getD 0) :
    processedOf req (it :: rest) = processedOf req rest := by
  simp only [processedOf, List.filterMap_cons, if_neg hpos]

/-- Filtering the processed lines by product equals processing the
product-filtered lines. -/
theorem processedOf_filter_product (req : Nat → Option Int) (pid : Nat)
    (items : List OrderItem) :
    (processedOf req items).filter (fun pr => pr.1.product == pid)
      = processedOf req (items.filter (fun it => it.product == pid)) := by
  induction items with
  | nil => rfl
  | cons it rest ih =>
    by_cases hpos : 0 < (req it.id).getD 0
    · rw [processedOf_cons_pos req it rest hpos]
      by_cases hp : it.product = pid
      · rw [List.filter_cons_of_pos (by simp [hp]),
          List.filter_cons_of_pos (by simp [hp]),
          processedOf_cons_pos req it _ hpos, ih]
      · rw [List.filter_cons_of_neg (by simp [hp]),
          List.filter_cons_of_neg (by simp [hp]), ih]
    · rw [processedOf_cons_neg req it rest hpos]
      by_cases hp : it.product = pid
      · rw [List.filter_cons_of_pos (by simp [hp]),
          processedOf_cons_neg req it _ hpos, ih]
      · rw [List.filter_cons_of_neg (by simp [hp]), ih]

/-- The return items accumulated by the `return_order` loop: one
`OrderReturnItem` per processed line, in order. -/
theorem returnStep_fold_ritems (db : DB) (req : Nat → Option Int) (rid : Nat)
    (items : List OrderItem) :
    ∀ acc : List Product × ℚ × List OrderReturnItem,
      (items.foldl (returnStep db req rid) acc).2.2
        = acc.2.2 ++ (processedOf req items).map (fun pr =>
            ⟨rid, pr.1.product, pr.2, pr.1.unit_price⟩) := by
  induction items with
  | nil => intro acc; simp [processedOf]
  | cons it rest ih =>
    intro acc
    rw [List.foldl_cons, ih (returnStep db req rid acc it)]
    by_cases hpos : 0 < (req it.id).getD 0
    · have h2 : (returnStep db req rid acc it).2.2
          = acc.2.2 ++ [⟨rid, it.product,
              min ((req it.id).getD 0).toNat it.quantity,
              it.unit_price⟩] := by
        simp only [returnStep]
        rw [if_pos hpos]
      rw [h2, processedOf_cons_pos req it rest hpos, List.map_cons,
        List.append_assoc]
      rfl
    · have h2 : returnStep db req rid acc it = acc := by
        simp only [returnStep]
        rw [if_neg hpos]
      rw [h2, processedOf_cons_neg req it rest hpos]

/-- Writing the stock of rows keyed by another product id does not change a
`find?` by `pid`. -/
theorem find?_map_write_other (pid other : Nat) (hne : other ≠ pid)
    (l : List Product) (v : Int) :
    (l.map (fun p => if p.id == other then { p with stock_quantity := v }
        else p)).find? (fun x => x.id == pid)
      = l.find? (fun x => x.id == pid) := by
  have hpred : ∀ p : Product,
      (((if p.id == other then { p with stock_quantity := v } else p) :
        Product).id == pid) = (p.id == pid) := by
    intro p
    by_cases hp2 : p.id == other
    · rw [if_pos hp2]
    · rw [if_neg hp2]
  rw [find?_map_pred _ _ _ hpred]
  cases hfa : l.find? (fun x => x.id == pid) with
  | none => rfl
  | some x =>
    have hxid2 : x.id = pid := by
      simpa using List.find?_some (p := fun y : Product => y.id == pid) hfa
    simp [hxid2, Ne.symm hne]

/-- Writing the stock of the rows keyed `pid` rewrites the row found by
`pid`. -/
theorem find?_map_write_self (pid : Nat) (l : List Product) (v : Int)
    (x : Product) (hfa : l.find? (fun y => y.id == pid) = some x) :
    (l.map (fun p => if p.id == pid then { p with stock_quantity := v }
        else p)).find? (fun y => y.id == pid)
      = some { x with stock_quantity := v } := by
  have hpred : ∀ p : Product,
      (((if p.id == pid then { p with stock_quantity := v } else p) :
        Product).id == pid) = (p.id == pid) := by
    intro p
    by_cases hp2 : p.id == pid
    · rw [if_pos hp2]
    · rw [if_neg hp2]
  rw [find?_map_pred _ _ _ hpred, hfa]
  have hxid2 : x.id = pid := by
    simpa using List.find?_some (p := fun y : Product => y.id == pid) hfa
  simp [hxid2]

/-- Processed lines for other products do not move the catalog row keyed
`pid`. -/
theorem returnStep_fold_find_other (db : DB) (req : Nat → Option Int)
    (rid pid : Nat) (items : List OrderItem) :
    ∀ acc : List Product × ℚ × List OrderReturnItem,
      (∀ pr ∈ processedOf req items, pr.1.product ≠ pid) →
      ((items.foldl (returnStep db req rid) acc).1).find?
          (fun x => x.id == pid)
        = acc.1.find? (fun x => x.id == pid) := by
  induction items with
  | nil => intro acc _; rfl
  | cons it rest ih =>
    intro acc hothers
    rw [List.foldl_cons]
    by_cases hpos : 0 < (req it.id).getD 0
    · have hcons := processedOf_cons_pos req it rest hpos
      have hne : it.product ≠ pid :=
        hothers (it, min ((req it.id).getD 0).toNat it.quantity)
          (by rw [hcons]; exact List.mem_cons_self _ _)
      have hrest : ∀ pr ∈ processedOf req rest, pr.1.product ≠ pid :=
        fun pr hpr =>
          hothers pr (by rw [hcons]; exact List.mem_cons_of_mem _ hpr)
      rw [ih (returnStep db req rid acc it) hrest]
      simp only [returnStep]
      rw [if_pos hpos]
      exact find?_map_write_other pid it.product hne acc.1 _
    · have hrest : ∀ pr ∈ processedOf req rest, pr.1.product ≠ pid :=
        fun pr hpr =>
          hothers pr (by rw [processedOf_cons_neg req it rest hpos]; exact hpr)
      have hstep : returnStep db req rid acc it = acc := by
        simp only [returnStep]
        rw [if_neg hpos]
      rw [hstep]
      exact ih acc hrest

/-- When exactly one processed line concerns product `pid`, the loop leaves
the catalog row keyed `pid` with its pre-return stock plus that line's
returned quantity. -/
theorem returnStep_fold_find_single (db : DB) (req : Nat → Option Int)
    (rid pid : Nat) (item0 : OrderItem) (r0 : Nat) (prodOrig : Product)
    (hstale : db.products.find? (fun x => x.id == pid) = some prodOrig)
    (items : List OrderItem) :
    ∀ acc : List Product × ℚ × List OrderReturnItem,
      (processedOf req items).filter (fun pr => pr.1.product == pid)
          = [(item0, r0)] →
      ∀ prodRow : Product,
        acc.1.find? (fun x => x.id == pid) = some prodRow →
        ((items.foldl (returnStep db req rid) acc).1).find?
            (fun x => x.id == pid)
          = some { prodRow with
              stock_quantity := prodOrig.stock_quantity + (r0 : Int) } := by
  induction items with
  | nil =>
    intro acc hsing
    simp [processedOf] at hsing
  | cons it rest ih =>
    intro acc hsing prodRow hrow
    rw [List.foldl_cons]
    by_cases hpos : 0 < (req it.id).getD 0
    · have hcons := processedOf_cons_pos req it rest hpos
      by_cases hprod : it.product = pid
      · have hfilter : (processedOf req (it :: rest)).filter
            (fun pr => pr.1.product == pid)
            = (it, min ((req it.id).getD 0).toNat it.quantity)
              :: (processedOf req rest).filter
                (fun pr => pr.1.product == pid) := by
          rw [hcons, List.filter_cons_of_pos (by simp [hprod])]
        rw [hfilter] at hsing
        have hit := (List.cons.inj hsing).1
        have hrest0 : (processedOf req rest).filter
            (fun pr => pr.1.product == pid) = [] := (List.cons.inj hsing).2
        have hnomore : ∀ pr ∈ processedOf req rest, pr.1.product ≠ pid := by
          intro pr hpr hcp
          have hmem : pr ∈ (processedOf req rest).filter
              (fun pr => pr.1.product == pid) :=
            List.mem_filter.mpr ⟨hpr, by simp [hcp]⟩
          rw [hrest0] at hmem
          simp at hmem
        rw [returnStep_fold_find_other db req rid pid rest
          (returnStep db req rid acc it) hnomore]
        have hr0 : min ((req it.id).getD 0).toNat it.quantity = r0 :=
          congrArg Prod.snd hit
        simp only [returnStep]
        rw [if_pos hpos, hprod, hstale, hr0]
        exact find?_map_write_self pid acc.1 _ prodRow hrow
      · have hfilter2 : (processedOf req (it :: rest)).filter
            (fun pr => pr.1.product == pid)
            = (processedOf req rest).filter
              (fun pr => pr.1.product == pid) := by
          rw [hcons, List.filter_cons_of_neg (by simp [hprod])]
        rw [hfilter2] at hsing
        apply ih (returnStep db req rid acc it) hsing prodRow
        simp only [returnStep]
        rw [if_pos hpos]
        rw [find?_map_write_other pid it.product hprod acc.1 _]
        exact hrow
    · have hcons2 := processedOf_cons_neg req it rest hpos
      rw [hcons2] at hsing
      have hstep : returnStep db req rid acc it = acc := by
        simp only [returnStep]
        rw [if_neg hpos]
      rw [hstep]
      exact ih acc hsing prodRow hrow

/-- C4: a return line asking quantity `n > 0` against order item `item` —
the order's only line for its product — creates exactly one
`OrderReturnItem` for that product, with quantity `min n Q` (clamped to
the ordered quantity `Q`) snapshotting the item's `unit_price`, and the
product's stock increases by exactly that quantity, from `s` to
`s + min n Q`, regardless of the current stock level. -/
theorem return_order_line_processed (db : DB) (orderId : Nat)
    (reason rm : String) (req : Nat → Option Int) (rid : Nat) (now : Int)
    (item : OrderItem) (n : Int) (prod : Product)
    (hord : (db.orders.find? (fun o => o.id == orderId)).isSome = true)
    (hitem : db.orderItems.filter
        (fun it => it.order == orderId && it.product == item.product)
        = [item])
    (hreq : req item.id = some n) (hn : 0 < n)
    (hprod : db.products.find? (fun x => x.id == item.product) = some prod) :
    ∃ db2, return_order db orderId reason rm req rid now = some db2
      ∧ db2.products.find? (fun x => x.id == item.product)
          = some { prod with stock_quantity :=
              prod.stock_quantity + ((min n.toNat item.quantity : ℕ) : Int) }
      ∧ (db2.returnItems.drop db.returnItems.length).filter
          (fun ri => ri.product == item.product)
          = [⟨rid, item.product, min n.toNat item.quantity,
              item.unit_price⟩] := by
  obtain ⟨o, ho⟩ := Option.isSome_iff_exists.mp hord
  have hpos0 : 0 < (req item.id).getD 0 := by rw [hreq]; exact hn
  have horig : (db.orderItems.filter (fun it => it.order == orderId)).filter
      (fun it => it.product == item.product) = [item] := by
    rw [List.filter_filter]
    rw [List.filter_congr (fun (it : OrderItem) _ =>
      Bool.and_comm (it.product == item.product) (it.order == orderId))]
    exact hitem
  have hsing : (processedOf req
        (db.orderItems.filter (fun it => it.order == orderId))).filter
      (fun pr => pr.1.product == item.product)
      = [(item, min n.toNat item.quantity)] := by
    rw [processedOf_filter_product, horig,
      processedOf_cons_pos req item [] hpos0]
    simp only [hreq, Option.getD_some]
    rfl
  refine ⟨{ db with
      products := ((db.orderItems.filter
          (fun it => it.order == orderId)).foldl
        (returnStep db req rid) (db.products, 0, [])).1,
      orderReturns := db.orderReturns ++
        [⟨rid, orderId, reason, rm, now⟩],
      returnItems := db.returnItems ++
        ((db.orderItems.filter (fun it => it.order == orderId)).foldl
          (returnStep db req rid) (db.products, 0, [])).2.2,
      payments := db.payments ++
        (if rm ≠ "" ∧ 0 < ((db.orderItems.filter
              (fun it => it.order == orderId)).foldl
            (returnStep db req rid) (db.products, 0, [])).2.1 then
          [⟨orderId, rm,
            -((db.orderItems.filter (fun it => it.order == orderId)).foldl
              (returnStep db req rid) (db.products, 0, [])).2.1,
            "REFUND"⟩]
        else []),
      orders := db.orders.map (fun o =>
        if o.id == orderId then { o with status := .returned } else o) },
    ?_, ?_, ?_⟩
  · unfold return_order
    simp only [ho]
  · exact returnStep_fold_find_single db req rid item.product item
      (min n.toNat item.quantity) prod hprod
      (db.orderItems.filter (fun it => it.order == orderId))
      (db.products, 0, []) hsing prod hprod
  · rw [show ({ db with
        products := ((db.orderItems.filter
            (fun it => it.order == orderId)).foldl
          (returnStep db req rid) (db.products, 0, [])).1,
        orderReturns := db.orderReturns ++
          [⟨rid, orderId, reason, rm, now⟩],
        returnItems := db.returnItems ++
          ((db.orderItems.filter (fun it => it.order == orderId)).foldl
            (returnStep db req rid) (db.products, 0, [])).2.2,
        payments := db.payments ++
          (if rm ≠ "" ∧ 0 < ((db.orderItems.filter
                (fun it => it.order == orderId)).foldl
              (returnStep db req rid) (db.products, 0, [])).2.1 then
            [⟨orderId, rm,
              -((db.orderItems.filter (fun it => it.order == orderId)).foldl
                (returnStep db req rid) (db.products, 0, [])).2.1,
              "REFUND"⟩]
          else []),
        orders := db.orders.map (fun o =>
          if o.id == orderId then { o with status := .returned } else o) } :
        DB).returnItems
      = db.returnItems ++
        ((db.orderItems.filter (fun it => it.order == orderId)).foldl
          (returnStep db req rid) (db.products, 0, [])).2.2 from rfl]
    rw [List.drop_left]
    rw [returnStep_fold_ritems db req rid
      (db.orderItems.filter (fun it => it.order == orderId))
      (db.products, 0, [])]
    rw [show ((db.products, (0 : ℚ),
        ([] : List OrderReturnItem))).2.2 = [] from rfl]
    rw [List.nil_append, filter_comm_map]
    rw [List.filter_congr (fun (pr : OrderItem × Nat) _ => rfl
      : ∀ pr ∈ processedOf req
          (db.orderItems.filter (fun it => it.order == orderId)),
        ((⟨rid, pr.1.product, pr.2, pr.1.unit_price⟩ :
            OrderReturnItem).product == item.product)
          = (pr.1.product == item.product))]
    rw [hsing]
    rfl

/-- Witness for C4: returning 2 of the 3 ordered units of `exProduct` on
`retDB`. -/
theorem return_order_line_processed_witness :
    ∃ db2, return_order retDB 1 "damaged" "cash"
        (fun i => if i == 10 then some 2 else none) 5 7 = some db2
      ∧ db2.products.find? (fun x =>
            x.id == (⟨10, 1, 1, 3, 10, 0⟩ : OrderItem).product)
          = some { exProduct with stock_quantity :=
              exProduct.stock_quantity
                + ((min (2 : Int).toNat
                    (⟨10, 1, 1, 3, 10, 0⟩ : OrderItem).quantity : ℕ) : Int) }
      ∧ (db2.returnItems.drop retDB.returnItems.length).filter
          (fun ri => ri.product == (⟨10, 1, 1, 3, 10, 0⟩ : OrderItem).product)
          = [⟨5, (⟨10, 1, 1, 3, 10, 0⟩ : OrderItem).product,
              min (2 : Int).toNat (⟨10, 1, 1, 3, 10, 0⟩ : OrderItem).quantity,
              (⟨10, 1, 1, 3, 10, 0⟩ : OrderItem).unit_price⟩] :=
  return_order_line_processed retDB 1 "damaged" "cash"
    (fun i => if i == 10 then some 2 else none) 5 7 ⟨10, 1, 1, 3, 10, 0⟩ 2
    exProduct (by decide) (by decide) rfl (by decide) (by decide)

end Shop
